import Mathlib

/-!
Verification of the snek object store's predicate algebra, subscription push
protocol, transaction commit/rollback fan-out, and access-control reentrancy
suppression, as a shallow embedding of the Go source.

Modelling conventions:
* Record field values are modelled by the inductive `Snek.Val` covering the
  string, bool, integer and float comparison branches of `Comparator.apply`
  (query.go).  Go's `int64`/`uint64` are modelled as unbounded `Int` (the
  wraparound at 2^63 of the `±1` adjustment in `incInt` is not modelled;
  all claims use small operands) and `float64` as `Rat` (an ordered field;
  NaN/rounding are not modelled).  The byte-slice comparison branch of
  `Comparator.apply` is not modelled: no claim mentions byte-valued fields.
* Go's `Comparator` is a string type; only the six recognized constants are
  representable here, so the `unrecognized comparator` error branches of the
  source are unreachable in the model and fallible source functions whose
  only error is an unrecognized comparator (`Comparator.invert`, `Invert`)
  are modelled as total.
* A record (`reflect.Value` of struct kind) is modelled as a partial map from
  field names to values; `FieldByName` on an absent field yields Go's zero
  `reflect.Value`, which makes `Comparator.apply` fail, modelled by `Except.error`.
* Fallible Go functions returning `(bool, error)` become `Except String Bool`.
-/

namespace Snek

/-- The six comparators of query.go (`EQ NE GT GE LT LE`). -/
inductive Cmp where
  | EQ | NE | GT | GE | LT | LE
deriving DecidableEq, Repr

/-- Record/operand values: the string, bool, integer and float comparison
kinds of `Comparator.apply`. -/
inductive Val where
  | vStr (s : String)
  | vBool (b : Bool)
  | vInt (i : Int)
  | vFloat (q : Rat)
deriving DecidableEq, Repr

/-- `comparePrimitives` of query.go at integer operands. -/
def compareInt (c : Cmp) (a b : Int) : Bool :=
  match c with
  | .EQ => a == b
  | .NE => a != b
  | .GT => decide (b < a)
  | .GE => decide (b ≤ a)
  | .LT => decide (a < b)
  | .LE => decide (a ≤ b)

/-- `comparePrimitives` of query.go at float operands (floats modelled as `Rat`). -/
def compareRat (c : Cmp) (a b : Rat) : Bool :=
  match c with
  | .EQ => a == b
  | .NE => a != b
  | .GT => decide (b < a)
  | .GE => decide (b ≤ a)
  | .LT => decide (a < b)
  | .LE => decide (a ≤ b)

/-- `comparePrimitives` of query.go at string operands (lexicographic). -/
def compareStr (c : Cmp) (a b : String) : Bool :=
  match c with
  | .EQ => a == b
  | .NE => a != b
  | .GT => decide (b < a)
  | .GE => decide (b < a) || a == b
  | .LT => decide (a < b)
  | .LE => decide (a < b) || a == b

/-- The bool-to-int conversion inside `Comparator.apply` (`false` ↦ 0, `true` ↦ 1). -/
def boolToInt (b : Bool) : Int := if b then 1 else 0

/-- `Comparator.apply` of query.go: kind dispatch of the two operands.
Strings compare with strings only; bools with bools (as 0/1 integers);
integers and floats compare with each other, promoting integers to floats. -/
def applyCmp (c : Cmp) (a b : Val) : Except String Bool :=
  match a with
  | .vStr s1 =>
    match b with
    | .vStr s2 => .ok (compareStr c s1 s2)
    | _ => .error "argument 1 not comparable"
  | .vBool b1 =>
    match b with
    | .vBool b2 => .ok (compareInt c (boolToInt b1) (boolToInt b2))
    | _ => .error "argument 1 not comparable"
  | .vInt i1 =>
    match b with
    | .vInt i2 => .ok (compareInt c i1 i2)
    | .vFloat q2 => .ok (compareRat c (i1 : Rat) q2)
    | _ => .error "argument 1 not comparable"
  | .vFloat q1 =>
    match b with
    | .vFloat q2 => .ok (compareRat c q1 q2)
    | .vInt i2 => .ok (compareRat c q1 (i2 : Rat))
    | _ => .error "argument 1 not comparable"

/-- `noImplication` of query.go: always answers false (the "unknown" of the
three-valued reasoning). -/
def noImplication : Val → Val → Except String Bool := fun _ _ => .ok false

/-- `incInt` of query.go: when both operands are integers, adds the deltas
before comparing (the ±1 strict/non-strict adjustment); otherwise (floats,
strings, bools) applies the comparison unchanged. -/
def incInt (aDelta bDelta : Int) (f : Val → Val → Except String Bool) :
    Val → Val → Except String Bool :=
  fun a b =>
    match a, b with
    | .vInt x, .vInt y => f (.vInt (x + aDelta)) (.vInt (y + bDelta))
    | _, _ => f a b

/-- `implications` of query.go: the 6×6 table mapping the comparator pair
`(a, b)` to `(isTrue, isFalse)` comparisons on the two operand values. -/
def implications (a b : Cmp) :
    (Val → Val → Except String Bool) × (Val → Val → Except String Bool) :=
  match a, b with
  | .EQ, .EQ => (applyCmp .EQ, applyCmp .NE)
  | .EQ, .NE => (applyCmp .NE, applyCmp .EQ)
  | .EQ, .GT => (applyCmp .GT, applyCmp .LE)
  | .EQ, .GE => (applyCmp .GE, applyCmp .LT)
  | .EQ, .LT => (applyCmp .LT, applyCmp .GE)
  | .EQ, .LE => (applyCmp .LE, applyCmp .GT)
  | .NE, .EQ => (noImplication, applyCmp .EQ)
  | .NE, .NE => (applyCmp .EQ, noImplication)
  | .NE, .GT => (noImplication, noImplication)
  | .NE, .GE => (noImplication, noImplication)
  | .NE, .LT => (noImplication, noImplication)
  | .NE, .LE => (noImplication, noImplication)
  | .GT, .EQ => (noImplication, applyCmp .GE)
  | .GT, .NE => (applyCmp .GE, noImplication)
  | .GT, .GT => (applyCmp .GE, noImplication)
  | .GT, .GE => (incInt 1 0 (applyCmp .GE), noImplication)
  | .GT, .LT => (noImplication, incInt 1 0 (applyCmp .GE))
  | .GT, .LE => (noImplication, applyCmp .GE)
  | .GE, .EQ => (noImplication, applyCmp .GT)
  | .GE, .NE => (applyCmp .GT, noImplication)
  | .GE, .GT => (applyCmp .GT, noImplication)
  | .GE, .GE => (applyCmp .GE, noImplication)
  | .GE, .LT => (noImplication, applyCmp .GE)
  | .GE, .LE => (noImplication, applyCmp .GT)
  | .LT, .EQ => (noImplication, applyCmp .LE)
  | .LT, .NE => (applyCmp .LE, noImplication)
  | .LT, .GT => (noImplication, incInt 0 1 (applyCmp .LE))
  | .LT, .GE => (noImplication, applyCmp .LE)
  | .LT, .LT => (applyCmp .LE, noImplication)
  | .LT, .LE => (incInt 0 1 (applyCmp .LE), noImplication)
  | .LE, .EQ => (noImplication, applyCmp .LT)
  | .LE, .NE => (applyCmp .LT, noImplication)
  | .LE, .GT => (noImplication, applyCmp .LE)
  | .LE, .GE => (noImplication, applyCmp .LT)
  | .LE, .LT => (applyCmp .LT, noImplication)
  | .LE, .LE => (applyCmp .LE, noImplication)

/-- A record value: a partial map from field names to values (a struct). -/
abbrev Rec := String → Option Val

/-- The predicate algebra of query.go: the closed sum
`{All, None, Cond, And, Or}` of `Set` implementers. -/
inductive Set where
  | All : Set
  | None : Set
  | Cond (field : String) (comparator : Cmp) (value : Val) : Set
  | And (parts : List Set) : Set
  | Or (parts : List Set) : Set
deriving Repr

/-- `Cond.matches` of query.go: look the field up in the record and apply the
comparator to `(field value, cond value)`.  A missing field is Go's zero
`reflect.Value`, on which `Comparator.apply` fails. -/
def condMatches (field : String) (c : Cmp) (v : Val) (r : Rec) : Except String Bool :=
  match r field with
  | some x => applyCmp c x v
  | none => .error "argument 1 not comparable"

mutual

/-- In-memory matching of a `Set` against a record: `All.matches`,
`None.matches`, `Cond.matches`, `And.matches`, `Or.matches` of query.go. -/
def Set.matches : Set → Rec → Except String Bool
  | .All, _ => .ok true
  | .None, _ => .ok false
  | .Cond f c v, r => condMatches f c v r
  | .And parts, r => matchesAllList parts r
  | .Or parts, r => matchesAnyList parts r

/-- The `And.matches` loop: conjunction, stopping at the first error or the
first false child. -/
def matchesAllList : List Set → Rec → Except String Bool
  | [], _ => .ok true
  | p :: rest, r =>
    match p.matches r with
    | .error e => .error e
    | .ok false => .ok false
    | .ok true => matchesAllList rest r

/-- The `Or.matches` loop: disjunction, stopping at the first error or the
first true child. -/
def matchesAnyList : List Set → Rec → Except String Bool
  | [], _ => .ok false
  | p :: rest, r =>
    match p.matches r with
    | .error e => .error e
    | .ok true => .ok true
    | .ok false => matchesAnyList rest r

end

/-- The `Cond`-vs-`Cond` branch of `Cond.Excludes` (query.go): same field
applies the table's `isFalse` comparison to the two cond values; distinct
fields answer false. -/
def condCondExcludes (f1 : String) (c1 : Cmp) (v1 : Val)
    (f2 : String) (c2 : Cmp) (v2 : Val) : Except String Bool :=
  if f2 = f1 then (implications c1 c2).2 v1 v2 else .ok false

/-- The `Cond`-vs-`Cond` branch of `Cond.Includes` (query.go): same field
applies the table's `isTrue` comparison to the two cond values; distinct
fields answer false. -/
def condCondIncludes (f1 : String) (c1 : Cmp) (v1 : Val)
    (f2 : String) (c2 : Cmp) (v2 : Val) : Except String Bool :=
  if f2 = f1 then (implications c1 c2).1 v1 v2 else .ok false

mutual

/-- `Excludes` dispatch of query.go: `All.Excludes` is constantly false,
`None.Excludes` constantly true, `Cond.Excludes` dispatches on the other set,
`And.Excludes` holds when some child excludes, `Or.Excludes` when all do. -/
def Set.Excludes : Set → Set → Except String Bool
  | .All, _ => .ok false
  | .None, _ => .ok true
  | .Cond f c v, s => condExcludes f c v s
  | .And parts, s => excludesAnyList parts s
  | .Or parts, s => excludesAllList parts s
termination_by a b => (sizeOf a + sizeOf b, 2)

/-- `Cond.Excludes` of query.go: against another `Cond` use the implication
table; against `All` answer false, against `None` true; against a composite
delegate to `s.Excludes(c)`. -/
def condExcludes (f : String) (c : Cmp) (v : Val) : Set → Except String Bool
  | .Cond f2 c2 v2 => condCondExcludes f c v f2 c2 v2
  | .All => .ok false
  | .None => .ok true
  | .And parts => excludesAnyList parts (.Cond f c v)
  | .Or parts => excludesAllList parts (.Cond f c v)
termination_by s => (sizeOf (Set.Cond f c v) + sizeOf s, 1)

/-- The `And.Excludes` loop: first error aborts, first excluding child
answers true, otherwise false. -/
def excludesAnyList : List Set → Set → Except String Bool
  | [], _ => .ok false
  | p :: rest, s =>
    match p.Excludes s with
    | .error e => .error e
    | .ok true => .ok true
    | .ok false => excludesAnyList rest s
termination_by l s => (sizeOf l + sizeOf s, 0)

/-- The `Or.Excludes` loop: first error aborts, first non-excluding child
answers false, otherwise true. -/
def excludesAllList : List Set → Set → Except String Bool
  | [], _ => .ok true
  | p :: rest, s =>
    match p.Excludes s with
    | .error e => .error e
    | .ok false => .ok false
    | .ok true => excludesAllList rest s
termination_by l s => (sizeOf l + sizeOf s, 0)

end

/-- `Comparator.invert` of query.go (= ↔ ≠, > ↔ ≤, ≥ ↔ <); the unrecognized
branch is unreachable for the closed enum, so the function is total. -/
def Cmp.invert : Cmp → Cmp
  | .EQ => .NE
  | .NE => .EQ
  | .GT => .LE
  | .GE => .LT
  | .LT => .GE
  | .LE => .GT

mutual

/-- `Invert` of query.go: `All ↔ None`, `Cond` flips its comparator,
`And` becomes `Or` of inverted children and vice versa.  The only error of
the source (`unrecognized comparator`) is unreachable here, so the model is
total. -/
def Set.Invert : Set → Set
  | .All => .None
  | .None => .All
  | .Cond f c v => .Cond f c.invert v
  | .And parts => .Or (invertList parts)
  | .Or parts => .And (invertList parts)

/-- The child-inversion loops of `And.Invert` / `Or.Invert`. -/
def invertList : List Set → List Set
  | [] => []
  | p :: rest => p.Invert :: invertList rest

end

/-- `Cond.Includes` of query.go: against another `Cond` use the implication
table's `isTrue`; against anything else, invert the cond and test exclusion
(`invertedC.Excludes(s)`). -/
def condIncludes (f : String) (c : Cmp) (v : Val) (s : Set) : Except String Bool :=
  match s with
  | .Cond f2 c2 v2 => condCondIncludes f c v f2 c2 v2
  | _ => condExcludes f c.invert v s

mutual

/-- `Includes` dispatch of query.go: `All.Includes` constantly true,
`None.Includes` constantly false, `And.Includes` when every child includes,
`Or.Includes` when some child does. -/
def Set.Includes : Set → Set → Except String Bool
  | .All, _ => .ok true
  | .None, _ => .ok false
  | .Cond f c v, s => condIncludes f c v s
  | .And parts, s => includesAllList parts s
  | .Or parts, s => includesAnyList parts s

/-- The `And.Includes` loop: first error aborts, first non-including child
answers false, otherwise true. -/
def includesAllList : List Set → Set → Except String Bool
  | [], _ => .ok true
  | p :: rest, s =>
    match p.Includes s with
    | .error e => .error e
    | .ok false => .ok false
    | .ok true => includesAllList rest s

/-- The `Or.Includes` loop: first error aborts, first including child
answers true, otherwise false. -/
def includesAnyList : List Set → Set → Except String Bool
  | [], _ => .ok false
  | p :: rest, s =>
    match p.Includes s with
    | .error e => .error e
    | .ok true => .ok true
    | .ok false => includesAnyList rest s

end

/-! ## Query, clone and `View.Select` (query.go and the transaction file) -/

/-- `Order` of query.go. -/
structure OrderT where
  field : String
  desc : Bool
deriving DecidableEq, Repr

/-- `On` of query.go (the ON part of a JOIN). -/
structure OnT where
  mainField : String
  comparator : Cmp
  joinField : String
deriving Repr

/-- `Join` of query.go: joined type name, its `Set` (a nil Go interface is
`Option.none`), and the ON conditions. -/
structure JoinT where
  typName : String
  jset : Option Set
  onConds : List OnT
deriving Repr

/-- `Query` of query.go; a nil `Set` is `Option.none`. -/
structure Query where
  set : Option Set
  limit : Nat
  distinct : Bool
  order : List OrderT
  joins : List JoinT
deriving Repr

/-- The fresh `&Query{}` that `View.Select` substitutes for a nil query. -/
def emptyQuery : Query := ⟨none, 0, false, [], []⟩

/-- `Query.clone` of query.go: a new `Query` with the same `Set` and copies
of the `Order` and `Joins` slices. -/
def Query.clone (q : Query) : Query :=
  { set := q.set, limit := q.limit, distinct := q.distinct
    order := q.order, joins := q.joins }

/-- The `if q.Set == nil { q.Set = All{} }` defaulting that
`Query.toSelectStatement` applies to the query it renders. -/
def Query.selectDefaulted (q : Query) : Query :=
  { q with set := some (q.set.getD .All) }

/-- `View.queryControl` of the transaction file: system callers and views
already executing a control skip the check; an unregistered type is an
error; otherwise the flag is set, the registered control predicate runs (it
may mutate the query it is handed, modelled by returning a new query), and
the deferred reset clears the flag whether the predicate succeeded or
failed.  Result: (query after the control, control error, final flag). -/
def queryControl (isSystem : Bool) (isControl : Bool) (registered : Bool)
    (ctrl : Query → Query × Option String) (query : Query) :
    Query × Option String × Bool :=
  if isSystem || isControl then (query, none, isControl)
  else if !registered then (query, some "not registered with query control", isControl)
  else
    let r := ctrl query
    (r.1, r.2, false)

/-- `Update.updateControl` of the transaction file: same skip and flag
behaviour as `queryControl`, with the control predicate receiving the
previous and next record values.  Result: (control error, final flag). -/
def updateControl (isSystem : Bool) (isControl : Bool) (registered : Bool)
    (ctrl : Option Rec → Option Rec → Option String)
    (prev next : Option Rec) : Option String × Bool :=
  if isSystem || isControl then (none, isControl)
  else if !registered then (some "not registered with update control", isControl)
  else (ctrl prev next, false)

/-- The observable outcome of `View.Select`: the caller's `*query` cell
after the call, the query actually projected to SQL (if reached), and the
returned error (backend errors are not modelled). -/
structure SelectRun where
  callerQuery : Option Query
  sqlQuery : Option Query
  error : Option String
deriving Repr

/-- `View.Select` of the transaction file.  A nil query rebinds the local
pointer to a fresh `Query{}`; a non-slice destination fails; otherwise the
query is cloned, `queryControl` runs on the clone (and may mutate only the
clone), and `toSelectStatement` renders the clone with its nil `Set`
defaulted to `All`.  The caller's `*query` cell is carried through
explicitly: no step writes to it. -/
def viewSelect (query : Option Query) (typOk : Bool)
    (isSystem isControl registered : Bool)
    (ctrl : Query → Query × Option String) : SelectRun :=
  if !typOk then
    { callerQuery := query, sqlQuery := none
      error := some "only pointers to slices of structs allowed" }
  else
    match queryControl isSystem isControl registered ctrl
        (query.getD emptyQuery).clone with
    | (_, some e, _) => { callerQuery := query, sqlQuery := none, error := some e }
    | (qc, none, _) =>
      { callerQuery := query, sqlQuery := some qc.selectDefaulted, error := none }

/-! ## Subscription push (the subscription file) -/

/-- The 32-byte HighwayHash digest, modelled abstractly. -/
abbrev Hash := Nat

/-- The zero `[highwayhash.Size]byte`: both a fresh subscription's
`lastPushHash` and the hash that `load` returns on failure. -/
def emptyHash : Hash := 0

/-- The `(results, hash, err)` triple returned by `subscription.load`:
on success the loaded results with their serialization hash and no error;
on failure nil results, the zero hash, and the error. -/
def loadTriple {R : Type} (load : Except String (R × Hash)) :
    Option R × Hash × Option String :=
  match load with
  | .ok rh => (some rh.1, rh.2, none)
  | .error e => (none, emptyHash, some e)

/-- The observable outcome of one `subscription.push`: the subscription's
`lastPushHash` afterwards, whether it is still in the registry (`Del` on
sink error), and the `(results, err)` pair delivered to the sink
(`none` when the sink was not invoked). -/
structure PushOutcome (R : Type) where
  lastPushHash : Hash
  inRegistry : Bool
  delivered : Option (Option R × Option String)
deriving Repr

/-- `subscription.push` of the subscription file: run `load`; if the hash
differs from `lastPushHash`, deliver `(results, loadErr)` to the sink; a
sink error evicts the subscription from the registry and leaves
`lastPushHash` unchanged, a sink success stores the new hash; an equal hash
does nothing.  The sink's verdict is modelled by the function `sink`
returning its error, if any. -/
def subPush {R : Type} (lastPushHash : Hash) (load : Except String (R × Hash))
    (sink : Option R → Option String → Option String) : PushOutcome R :=
  let t := loadTriple load
  let results := t.1
  let hash := t.2.1
  let loadErr := t.2.2
  if hash ≠ lastPushHash then
    match sink results loadErr with
    | some _ =>
      { lastPushHash := lastPushHash, inRegistry := false
        delivered := some (results, loadErr) }
    | none =>
      { lastPushHash := hash, inRegistry := true
        delivered := some (results, loadErr) }
  else
    { lastPushHash := lastPushHash, inRegistry := true, delivered := none }

/-! ## `Snek.Update` commit/rollback and subscription fan-out
(the transaction file) -/

/-- What became of the transaction. -/
inductive TxFate where
  | rolledBack
  | commitFailed
  | committed
deriving DecidableEq, Repr

/-- The observable outcome of `Snek.Update`: the returned error, the
transaction's fate, and the subscriptions pushed after commit. -/
structure UpdateRun where
  returned : Option String
  fate : TxFate
  pushed : List String
deriving DecidableEq, Repr

/-- `Snek.Update` of the transaction file: run the transaction function
(modelled by the subscription ids it enqueues, `fSubs`, and its result,
`fErr`); an error rolls the transaction back and returns it, pushing
nothing; otherwise commit (its backend outcome is the input `commitErr`),
and on successful commit push every enqueued subscription
(`subscriptions.push()`). -/
def snekUpdate (fSubs : List String) (fErr : Option String)
    (commitErr : Option String) : UpdateRun :=
  match fErr with
  | some e => { returned := some e, fate := .rolledBack, pushed := [] }
  | none =>
    match commitErr with
    | some e => { returned := some e, fate := .commitFailed, pushed := [] }
    | none => { returned := none, fate := .committed, pushed := fSubs }

/-! ## Helper lemmas -/

/-- Flipping a comparator twice is the identity. -/
theorem cmp_invert_invert (c : Cmp) : c.invert.invert = c := by
  cases c <;> rfl

mutual

/-- Inverting a `Set` twice yields the original set, syntactically. -/
theorem set_invert_invert : ∀ s : Set, Set.Invert (Set.Invert s) = s
  | .All => rfl
  | .None => rfl
  | .Cond f c v => by
    show Set.Cond f c.invert.invert v = Set.Cond f c v
    rw [cmp_invert_invert]
  | .And parts => by
    show Set.And (invertList (invertList parts)) = Set.And parts
    rw [invert_list_invert_list parts]
  | .Or parts => by
    show Set.Or (invertList (invertList parts)) = Set.Or parts
    rw [invert_list_invert_list parts]

/-- Inverting a list of children twice yields the original list. -/
theorem invert_list_invert_list : ∀ l : List Set, invertList (invertList l) = l
  | [] => rfl
  | p :: rest => by
    show Set.Invert (Set.Invert p) :: invertList (invertList rest) = p :: rest
    rw [set_invert_invert p, invert_list_invert_list rest]

end

/-! ## Claim theorems -/

/-- Claim C1 (the failing half evaluated): the Set documentation in query.go
promises that `A.Includes(B)` returns true only when B is a subset of A and
that no false positives occur, but the `Cond`-vs-`Cond` implication table
proves containment in the reversed direction.  `Cond{A,GT,5}.Includes(Cond{A,NE,5})`
returns true (an answer the repository's own TestSetIncludes codifies), yet
the record `{A: 3}` is matched by the argument `A ≠ 5` and not by the
receiver `A > 5` — a false positive. -/
theorem includes_false_positive_on_cond_pair :
    Set.Includes (.Cond "A" .GT (.vInt 5)) (.Cond "A" .NE (.vInt 5)) = .ok true
    ∧ Set.matches (.Cond "A" .NE (.vInt 5))
        (fun f => if f = "A" then some (.vInt 3) else none) = .ok true
    ∧ Set.matches (.Cond "A" .GT (.vInt 5))
        (fun f => if f = "A" then some (.vInt 3) else none) = .ok false :=
  ⟨rfl, rfl, rfl⟩

/-- Claim C2: in every invocation of `subscription.push`, the sink is
invoked only when the hash returned by `load` differs from `lastPushHash`;
when the sink is invoked and returns an error the subscription is evicted
from the registry with `lastPushHash` unchanged; when it is invoked and
returns success, `lastPushHash` becomes the new hash and the subscription
stays registered. -/
theorem subscription_push_protocol {R : Type} (lastHash : Hash)
    (load : Except String (R × Hash))
    (sink : Option R → Option String → Option String) :
    ((subPush lastHash load sink).delivered ≠ none →
      (loadTriple load).2.1 ≠ lastHash)
    ∧ (∀ e : String,
        sink (loadTriple load).1 (loadTriple load).2.2 = some e →
        (subPush lastHash load sink).delivered ≠ none →
        (subPush lastHash load sink).inRegistry = false
          ∧ (subPush lastHash load sink).lastPushHash = lastHash)
    ∧ (sink (loadTriple load).1 (loadTriple load).2.2 = none →
        (subPush lastHash load sink).delivered ≠ none →
        (subPush lastHash load sink).lastPushHash = (loadTriple load).2.1
          ∧ (subPush lastHash load sink).inRegistry = true) := by
  unfold subPush
  by_cases hh : (loadTriple load).2.1 = lastHash
  · rw [if_neg (by simp [hh])]
    exact ⟨fun hc => absurd rfl hc,
      fun e _ hc => absurd rfl hc,
      fun _ hc => absurd rfl hc⟩
  · rw [if_pos hh]
    cases hs : sink (loadTriple load).1 (loadTriple load).2.2 with
    | some e0 => exact ⟨fun _ => hh, fun _ _ _ => ⟨rfl, rfl⟩,
        fun hn _ => Option.noConfusion hn⟩
    | none => exact ⟨fun _ => hh,
        fun _ he _ => Option.noConfusion he,
        fun _ _ => ⟨rfl, rfl⟩⟩

/-- Witness for C2 at concrete inputs: a successful load with hash 2 against
`lastPushHash = 1`; an erroring sink evicts and keeps the hash, a successful
sink stores the new hash. -/
theorem subscription_push_protocol_witness :
    ((2 : Hash) ≠ (1 : Hash))
    ∧ ((subPush 1 (.ok ((), 2)) (fun _ _ => some "se")).inRegistry = false
        ∧ (subPush 1 (.ok ((), 2)) (fun _ _ => some "se")).lastPushHash = 1)
    ∧ ((subPush 1 (.ok ((), 2)) (fun _ _ => none)).lastPushHash
          = (loadTriple (R := Unit) (.ok ((), 2))).2.1
        ∧ (subPush 1 (.ok ((), 2)) (fun _ _ => none)).inRegistry = true) :=
  ⟨(subscription_push_protocol 1 (.ok ((), 2)) (fun _ _ => some "se")).1
      (by decide),
   (subscription_push_protocol 1 (.ok ((), 2)) (fun _ _ => some "se")).2.1
      "se" rfl (by decide),
   (subscription_push_protocol 1 (.ok ((), 2)) (fun _ _ => none)).2.2
      rfl (by decide)⟩

/-- Claim C3: `Snek.Update` rolls back and pushes no subscription when the
transaction function fails, and commits and pushes every enqueued
subscription when it succeeds (and the backend commit succeeds). -/
theorem update_atomicity (fSubs : List String) (fErr commitErr : Option String) :
    (∀ e : String, fErr = some e →
      snekUpdate fSubs fErr commitErr
        = { returned := some e, fate := .rolledBack, pushed := [] })
    ∧ (fErr = none → commitErr = none →
      snekUpdate fSubs fErr commitErr
        = { returned := none, fate := .committed, pushed := fSubs }) := by
  constructor
  · intro e he; subst he; rfl
  · intro h1 h2; subst h1; subst h2; rfl

/-- Witness for C3: a failing transaction function rolls back with no push;
a successful one commits and pushes the enqueued subscription. -/
theorem update_atomicity_witness :
    snekUpdate ["s1"] (some "boom") none
      = { returned := some "boom", fate := .rolledBack, pushed := [] }
    ∧ snekUpdate ["s1"] none none
      = { returned := none, fate := .committed, pushed := ["s1"] } :=
  ⟨(update_atomicity ["s1"] (some "boom") none).1 "boom" rfl,
   (update_atomicity ["s1"] none none).2 rfl rfl⟩

/-- Counterexample to claim C4: `All.Excludes(None)` returns false in the
source (`All.Excludes` ignores its argument), not true as claimed. -/
theorem all_excludes_none_is_false : Set.Excludes .All .None = .ok false := by
  simp [Set.Excludes]

/-- Claim C4 as amended: `All.Excludes` returns false for every `Set`,
including `None` (a permitted false negative of the three-valued algebra). -/
theorem all_excludes_always_false (s : Set) : Set.Excludes .All s = .ok false := by
  simp [Set.Excludes]

/-- Counterexample to claim C5: a push whose load fails while `lastPushHash`
is the zero hash (as on a fresh subscription) does not invoke the sink at
all — the load error is silently dropped, because `load` reports the zero
hash on failure and the hash-equality guard then suppresses delivery. -/
theorem load_error_silently_dropped :
    (subPush (R := Unit) emptyHash (.error "boom") (fun _ _ => none)).delivered
      = none := rfl

/-- Claim C5 as amended: when loading fails and `lastPushHash` differs from
the zero hash, the load error is delivered to the sink (as the error
argument, with nil results). -/
theorem load_error_delivered {R : Type} (lastHash : Hash) (e : String)
    (sink : Option R → Option String → Option String)
    (h : lastHash ≠ emptyHash) :
    (subPush lastHash (.error e) sink).delivered = some (none, some e) := by
  unfold subPush loadTriple
  rw [if_pos (Ne.symm h)]
  cases sink none (some e) <;> rfl

/-- Witness for the amended C5 at `lastPushHash = 1`. -/
theorem load_error_delivered_witness :
    (subPush (R := Unit) 1 (.error "boom") (fun _ _ => none)).delivered
      = some (none, some "boom") :=
  load_error_delivered 1 "boom" (fun _ _ => none) (by decide)

/-- Claim C6: double inversion is the identity up to matching behaviour:
for every `Set` (the comparator enum is closed, so `Invert` always
succeeds), `S.Invert().Invert()` matches exactly the records S matches. -/
theorem double_invert_matches_same (s : Set) (r : Rec) :
    Set.matches (Set.Invert (Set.Invert s)) r = Set.matches s r := by
  rw [set_invert_invert]

/-- Claim C7: the ±1 implication-table adjustment applies to integer
operands only: `Cond{A,GT,5}.Excludes(Cond{A,LT,6})` is true over integers
(`5+1 ≥ 6`), while `Cond{A,GT,5.0}.Excludes(Cond{A,LT,6.0})` is false over
floats (no adjustment, `5.0 ≥ 6.0` fails). -/
theorem gt_excludes_lt_int_not_float :
    Set.Excludes (.Cond "A" .GT (.vInt 5)) (.Cond "A" .LT (.vInt 6)) = .ok true
    ∧ Set.Excludes (.Cond "A" .GT (.vFloat 5)) (.Cond "A" .LT (.vFloat 6))
        = .ok false := by
  constructor
  · simp [Set.Excludes, condExcludes, condCondExcludes, implications, incInt,
      applyCmp, compareInt]
  · simp [Set.Excludes, condExcludes, condCondExcludes, implications, incInt,
      applyCmp, compareRat]
    norm_num

/-- Claim C8: while a control predicate is executing (`isControl` set), any
nested `queryControl`/`updateControl` on the same view returns nil without
consulting the registered predicate and leaves the flag alone; and a
top-level control invocation leaves the flag cleared on return whatever the
predicate (success or error) does. -/
theorem control_reentrancy (isSystem registered : Bool)
    (qctrl : Query → Query × Option String) (q : Query)
    (uctrl : Option Rec → Option Rec → Option String) (prev next : Option Rec) :
    queryControl isSystem true registered qctrl q = (q, none, true)
    ∧ (queryControl false false true qctrl q).2.2 = false
    ∧ updateControl isSystem true registered uctrl prev next = (none, true)
    ∧ (updateControl false false true uctrl prev next).2 = false := by
  refine ⟨?_, ?_, ?_, ?_⟩ <;> simp [queryControl, updateControl]

/-- Claim C9: `View.Select` never writes through the caller's query
pointer: whatever the control predicate does to the query it is handed,
the caller's `*query` (its Set, Limit, Distinct, Order and Joins) is the
same after the call, because `Select` clones the query before passing it to
the control and to SQL projection. -/
theorem select_preserves_caller_query (query : Option Query)
    (typOk isSystem isControl registered : Bool)
    (ctrl : Query → Query × Option String) :
    (viewSelect query typOk isSystem isControl registered ctrl).callerQuery
      = query := by
  unfold viewSelect
  split
  · rfl
  · split <;> rfl

/-- Claim C10: the empty composites are the identities of in-memory
matching: `And{}` matches every record (like `All`) and `Or{}` matches none
(like `None`). -/
theorem empty_and_or_matching_identity (r : Rec) :
    Set.matches (.And []) r = .ok true ∧ Set.matches (.Or []) r = .ok false :=
  ⟨rfl, rfl⟩

end Snek
